import Mathlib

/-!
Verification of the story-to-video pipeline orchestration core (`pipeline.py`).

Python strings are modelled as `List Char`; the directory-based artifact
store is modelled as a partial map from an inductive `Path` type to file
contents; external collaborators (the speech-synthesis service and the
media toolkit) are modelled as oracles, and every stage records the
operations it performs in an event trace.
-/

namespace StoryToVideo

/-- Python strings are modelled as lists of characters. -/
abbrev Str := List Char

/-- Characters removed by Python `str.strip()` on ASCII text:
space, tab, newline, carriage return, vertical tab, form feed. -/
def isPySpace (c : Char) : Bool :=
  c == ' ' || c == '\t' || c == '\n' || c == '\r' || c == '\x0b' || c == '\x0c'

/-- Python `s.strip()`: drop leading and trailing whitespace. -/
def pyStrip (s : Str) : Str :=
  ((s.dropWhile isPySpace).reverse.dropWhile isPySpace).reverse

/-- Python `s.split("\n")` (used to model the `re.MULTILINE` line structure
of `clean_story_text`). -/
def splitLines : Str → List Str
  | [] => [[]]
  | c :: rest =>
    if c = '\n' then [] :: splitLines rest
    else
      match splitLines rest with
      | [] => [[c]]
      | r :: rs => (c :: r) :: rs

/-- Python `s.split("\n\n")`: split on non-overlapping occurrences of a
blank line, scanning left to right (pipeline.py line 106). -/
def split2 : Str → List Str
  | [] => [[]]
  | [c] => [[c]]
  | a :: b :: rest =>
    if a = '\n' ∧ b = '\n' then [] :: split2 rest
    else
      match split2 (b :: rest) with
      | [] => [[a]]
      | r :: rs => (a :: r) :: rs

/-- Join a list of strings with a separator (inverse of splitting). -/
def joinSep (sep : Str) : List Str → Str
  | [] => []
  | [x] => x
  | x :: y :: xs => x ++ sep ++ joinSep sep (y :: xs)

/-- A line matched by the heading regex `^#+ .*$`: one or more `#`
followed by a space (pipeline.py line 60). -/
def isHeadingLine (l : Str) : Bool :=
  l.head? == some '#' && (l.dropWhile (· = '#')).head? == some ' '

/-- Model of `re.sub(r"^#+ .*$", "", text, flags=re.MULTILINE)`: each
heading line is replaced by the empty line, its terminating newline kept. -/
def removeHeadings (s : Str) : Str :=
  joinSep ['\n'] ((splitLines s).map (fun l => if isHeadingLine l then [] else l))

/-- Model of `re.sub(r"\*\*", "", text)`: remove non-overlapping `**`
pairs, scanning left to right (pipeline.py line 61). -/
def stripBold : Str → Str
  | [] => []
  | [c] => [c]
  | a :: b :: rest =>
    if a = '*' ∧ b = '*' then stripBold rest
    else a :: stripBold (b :: rest)

/-- Scanner for `re.sub(r"\n{3,}", "\n\n", text)`: `run` counts the
newlines of the current run already emitted; in a run of three or more
newlines, every newline past the second is dropped. -/
def collapseNlAux : Nat → Str → Str
  | _, [] => []
  | run, c :: rest =>
    if c = '\n' then
      if 2 ≤ run then collapseNlAux (run + 1) rest
      else c :: collapseNlAux (run + 1) rest
    else c :: collapseNlAux 0 rest

/-- Model of `re.sub(r"\n{3,}", "\n\n", text)` (pipeline.py line 62). -/
def collapseNl (s : Str) : Str := collapseNlAux 0 s

/-- `clean_story_text` (pipeline.py lines 56-63): strip heading lines,
remove `**` emphasis markers, collapse runs of 3+ newlines to a blank
line, and strip surrounding whitespace. The file read is factored out:
the function takes the file contents. -/
def clean_story_text (text : Str) : Str :=
  pyStrip (collapseNl (stripBold (removeHeadings text)))

/-- The chunk ceiling `max_chars` (pipeline.py line 104). -/
def maxChars : Nat := 4000

/-- A paragraph separator, Python `"\n\n"`. -/
def nl2 : Str := ['\n', '\n']

/-- The greedy paragraph-accumulation loop of `generate_narration`
(pipeline.py lines 105-114): accumulate paragraphs into `cur` while the
accumulated length plus the next paragraph stays below `maxChars`;
otherwise close the current chunk (stripped) and start a new one; after
the loop the last accumulator is closed if nonempty. -/
def chunkLoop : List Str → List Str → Str → List Str
  | [], chunks, cur => if cur = [] then chunks else chunks ++ [pyStrip cur]
  | p :: rest, chunks, cur =>
    if cur.length + p.length < maxChars then
      chunkLoop rest chunks (cur ++ p ++ nl2)
    else
      chunkLoop rest (if cur = [] then chunks else chunks ++ [pyStrip cur]) (p ++ nl2)

/-- Chunking of a paragraph list, starting from empty accumulators. -/
def chunksOf (paras : List Str) : List Str := chunkLoop paras [] []

/-- The complete chunking step of `generate_narration`: split the cleaned
text on blank lines and greedily accumulate (pipeline.py lines 103-114). -/
def chunkSplit (text : Str) : List Str :=
  chunksOf (split2 text)

/-!
The artifact store. A file on durable storage is identified by its
directory and stem (pipeline.py lines 32-40, 93-95, 194-195, 284-287);
distinct directories and extensions are distinct `Path` constructors.
-/

/-- Files touched by the pipeline, keyed as in pipeline.py:
`stories/<s>.md`, `images/<s>.png`, `narrations/<s>.mp3`, `mixed/<s>.mp3`,
`videos/<s>.mp4`, `temp/<s>_chunk<i>.mp3`, `temp/<s>_concat.txt`, and the
shared `background/background.m4a`. -/
inductive Path where
  | story (s : String)
  | image (s : String)
  | narration (s : String)
  | mixed (s : String)
  | video (s : String)
  | tempChunk (s : String) (i : Nat)
  | concatManifest (s : String)
  | bgm
deriving DecidableEq

/-- The filesystem: contents for the paths that exist. Presence of the
file is the completion signal. -/
abbrev FS := Path → Option Str

/-- Writing (or overwriting) a file. -/
def fsWrite (fs : FS) (p : Path) (c : Str) : FS :=
  fun q => if q = p then some c else fs q

/-- `Path.unlink` / deletion of a file. -/
def fsDelete (fs : FS) (p : Path) : FS :=
  fun q => if q = p then none else fs q

/-- Relative path rendering, as interpolated into the concat manifest. -/
def pathStr : Path → Str
  | .story s => ("stories/" ++ s ++ ".md").data
  | .image s => ("images/" ++ s ++ ".png").data
  | .narration s => ("narrations/" ++ s ++ ".mp3").data
  | .mixed s => ("mixed/" ++ s ++ ".mp3").data
  | .video s => ("videos/" ++ s ++ ".mp4").data
  | .tempChunk s i => ("temp/" ++ s ++ "_chunk" ++ toString i ++ ".mp3").data
  | .concatManifest s => ("temp/" ++ s ++ "_concat.txt").data
  | .bgm => "background/background.m4a".data

/-- A single quote character, used in concat manifest lines. -/
def quoteCh : Char := Char.ofNat 39

/-- Contents of the ffmpeg concat manifest: one line per chunk file,
of the form written by pipeline.py line 149. -/
def manifestContent (files : List Path) : Str :=
  (files.map (fun p => "file ".data ++ [quoteCh] ++ pathStr p ++ [quoteCh, '\n'])).flatten

/-- Observable operations performed by a stage. `ttsCall` is one request
to the remote speech-synthesis capability (the submitted chunk text and
the attempt number), `sleep` a blocking delay in milliseconds, and the
`ffmpeg` constructors one media-toolkit transcoding invocation each
(`ffmpegConcat` records whether the stream-copy flag `-c copy` was
passed). -/
inductive Event where
  | ttsCall (chunk : Str) (attempt : Nat)
  | sleep (ms : Nat)
  | write (p : Path)
  | rename (src dst : Path)
  | copy (src dst : Path)
  | unlink (p : Path)
  | probe (p : Path)
  | ffmpegConcat (story : String) (streamCopy : Bool)
  | ffmpegMix (story : String)
  | ffmpegVideo (story : String)
deriving DecidableEq

/-- Synthesis or transcoding work, as opposed to pure file bookkeeping. -/
def Event.isWork : Event → Bool
  | .ttsCall _ _ => true
  | .ffmpegConcat _ _ => true
  | .ffmpegMix _ => true
  | .ffmpegVideo _ => true
  | _ => false

/-- The media toolkit, as an oracle: each field models one ffmpeg
invocation, `none` standing for a non-zero exit status (which the Python
code turns into an exception via `check=True`). `concat` receives the
chunk contents in manifest order. -/
structure Toolkit where
  mix : Str → Str → Option Str
  concat : List Str → Option Str
  video : Str → Str → Option Str

/-- The speech-synthesis capability, as an oracle: given the submitted
chunk text and the attempt number, either the synthesized audio bytes or
`none` for a raised error. -/
abbrev Tts := Str → Nat → Option Str

/-- Result of one stage function for one story: the filesystem after the
call, the trace of performed operations, and either a raised exception or
the Python return value (`none` models returning `None`). -/
abbrev StageResult := FS × List Event × Except Unit (Option Path)

/-- The attempt indices of `for attempt in range(3)` (pipeline.py line 124). -/
def ttsAttempts : List Nat := [0, 1, 2]

/-- The retry loop of `generate_narration` (pipeline.py lines 124-138):
try the call; on success stop; on failure sleep 2 seconds and retry
unless this was the last allowed attempt, in which case the exception is
re-raised (`none` result). -/
def ttsRetry (call : Nat → Option Str) (chunk : Str) : List Nat → List Event × Option Str
  | [] => ([], none)
  | a :: rest =>
    match call a with
    | some audio => ([.ttsCall chunk a], some audio)
    | none =>
      if rest.isEmpty then ([.ttsCall chunk a], none)
      else
        let r := ttsRetry call chunk rest
        (.ttsCall chunk a :: .sleep 2000 :: r.1, r.2)

/-- The per-chunk synthesis loop of `generate_narration` (pipeline.py
lines 119-141): for each chunk, run the retry loop; on success stream the
audio to `temp/<story>_chunk<i>.mp3` and collect that path; sleep 0.5
seconds after every chunk except the last; a retry-exhausted chunk
re-raises, abandoning the remaining chunks. -/
def synthChunks (tts : Tts) (story : String) (total : Nat) :
    List Str → Nat → FS → FS × List Event × Except Unit (List Path)
  | [], _, fs => (fs, [], .ok [])
  | chunk :: rest, i, fs =>
    let r := ttsRetry (tts chunk) chunk ttsAttempts
    match r.2 with
    | none => (fs, r.1, .error ())
    | some audio =>
      let p := Path.tempChunk story i
      let fs1 := fsWrite fs p audio
      let slp : List Event := if i + 1 < total then [.sleep 500] else []
      let rec' := synthChunks tts story total rest (i + 1) fs1
      (rec'.1, (r.1 ++ [.write p]) ++ slp ++ rec'.2.1, rec'.2.2.map (p :: ·))

/-- The finalization of `generate_narration` (pipeline.py lines 143-157):
exactly one chunk file is renamed to the narration artifact; otherwise a
concat manifest is written and ffmpeg concatenates the chunk files with
stream copy (`-c copy`, modelled by the `streamCopy` flag and by handing
the toolkit the chunk contents in original order); on success the
manifest and every chunk file are deleted; on ffmpeg failure the
exception propagates with the manifest left behind. -/
def concatOrRename (tk : Toolkit) (story : String) (files : List Path) (fs : FS) :
    StageResult :=
  match files with
  | [p] =>
    let c := (fs p).getD []
    (fsWrite (fsDelete fs p) (Path.narration story) c,
     [.rename p (Path.narration story)],
     .ok (some (Path.narration story)))
  | _ =>
    let m := Path.concatManifest story
    let fs1 := fsWrite fs m (manifestContent files)
    match tk.concat (files.map (fun p => (fs p).getD [])) with
    | none => (fs1, [.write m, .ffmpegConcat story true], .error ())
    | some out =>
      let fs2 := fsWrite fs1 (Path.narration story) out
      let fs3 := files.foldl fsDelete (fsDelete fs2 m)
      (fs3,
       [.write m, .ffmpegConcat story true, .unlink m] ++ files.map .unlink,
       .ok (some (Path.narration story)))

/-- `generate_narration` (pipeline.py lines 93-159): return `None` when
the story file is missing; otherwise clean the text, chunk it, synthesize
every chunk with retries, and finalize by rename or concat. -/
def generate_narration (tts : Tts) (tk : Toolkit) (story : String) (fs : FS) :
    StageResult :=
  match fs (Path.story story) with
  | none => (fs, [], .ok none)
  | some raw =>
    let chunks := chunkSplit (clean_story_text raw)
    let s := synthChunks tts story chunks.length chunks 0 fs
    match s.2.2 with
    | .error e => (s.1, s.2.1, .error e)
    | .ok files =>
      let f := concatOrRename tk story files s.1
      (f.1, s.2.1 ++ f.2.1, f.2.2)

/-- `mix_audio` (pipeline.py lines 193-225): missing narration reports
not-found (`None`) before any toolkit call; missing background music
degrades to a byte copy of the narration; otherwise the narration
duration is probed and ffmpeg mixes the two sources. -/
def mix_audio (tk : Toolkit) (story : String) (fs : FS) : StageResult :=
  match fs (Path.narration story) with
  | none => (fs, [], .ok none)
  | some narr =>
    match fs Path.bgm with
    | none =>
      (fsWrite fs (Path.mixed story) narr,
       [.copy (Path.narration story) (Path.mixed story)],
       .ok (some (Path.mixed story)))
    | some music =>
      match tk.mix narr music with
      | none => (fs, [.probe (Path.narration story), .ffmpegMix story], .error ())
      | some out =>
        (fsWrite fs (Path.mixed story) out,
         [.probe (Path.narration story), .ffmpegMix story],
         .ok (some (Path.mixed story)))

/-- `create_video` (pipeline.py lines 284-315): missing image or missing
mixed audio returns `None` before any toolkit call; otherwise the audio
duration is probed and ffmpeg renders the video. -/
def create_video (tk : Toolkit) (story : String) (fs : FS) : StageResult :=
  match fs (Path.image story) with
  | none => (fs, [], .ok none)
  | some img =>
    match fs (Path.mixed story) with
    | none => (fs, [], .ok none)
    | some aud =>
      match tk.video img aud with
      | none => (fs, [.probe (Path.mixed story), .ffmpegVideo story], .error ())
      | some out =>
        (fsWrite fs (Path.video story) out,
         [.probe (Path.mixed story), .ffmpegVideo story],
         .ok (some (Path.video story)))

/-- Python truthiness of a stage return: a returned path counts as
success, `None` and a raised exception count as failure. -/
def stageOk : Except Unit (Option Path) → Bool
  | .ok (some _) => true
  | _ => false

/-- The per-stage batch summary: final filesystem, trace, and the two
counters `ok` and `fail` printed by the summary line. -/
structure StepOut where
  fs : FS
  events : List Event
  ok : Nat
  fail : Nat

/-- The shared batch loop of `step1_narrations`, `step2_mix` and
`step3_videos` (pipeline.py lines 170-186, 233-249, 323-339): for each
story, if the stage output already exists, skip and count it as ok;
otherwise run the stage, counting a truthy return as ok and a falsy
return or a caught exception as failed, and continue with the next
story. -/
def runBatch (outPath : String → Path)
    (run : String → FS → StageResult) :
    List String → FS → StepOut
  | [], fs => ⟨fs, [], 0, 0⟩
  | s :: rest, fs =>
    if (fs (outPath s)).isSome then
      let r := runBatch outPath run rest fs
      ⟨r.fs, r.events, 1 + r.ok, r.fail⟩
    else
      let one := run s fs
      let r := runBatch outPath run rest one.1
      ⟨r.fs, one.2.1 ++ r.events,
       (if stageOk one.2.2 then 1 else 0) + r.ok,
       (if stageOk one.2.2 then 0 else 1) + r.fail⟩

/-- `step1_narrations` (pipeline.py lines 162-186). -/
def step1_narrations (tts : Tts) (tk : Toolkit) : List String → FS → StepOut :=
  runBatch Path.narration (generate_narration tts tk)

/-- `step2_mix` (pipeline.py lines 228-249). -/
def step2_mix (tk : Toolkit) : List String → FS → StepOut :=
  runBatch Path.mixed (mix_audio tk)

/-- `step3_videos` (pipeline.py lines 318-339). -/
def step3_videos (tk : Toolkit) : List String → FS → StepOut :=
  runBatch Path.video (create_video tk)

/-- Deleting all whitespace: the claims state reconstruction of the
cleaned text by the chunks up to whitespace adjustments, which is
equality of the whitespace-free residues. -/
def dropWs (s : Str) : Str := s.filter (fun c => !isPySpace c)

/-- Concrete filesystem where story `a` has all three stage artifacts. -/
def fsAllOut : FS := fun p =>
  match p with
  | .narration "a" => some ['x']
  | .mixed "a" => some ['x']
  | .video "a" => some ['x']
  | _ => none

/-- A speech-synthesis oracle that always fails. -/
def ttsFail : Tts := fun _ _ => none

/-- A speech-synthesis oracle that always succeeds with fixed audio. -/
def ttsOk : Tts := fun _ _ => some ['x']

/-- A toolkit whose invocations all fail. -/
def tkFail : Toolkit := ⟨fun _ _ => none, fun _ => none, fun _ _ => none⟩

/-- A toolkit whose invocations all succeed, concatenation producing the
byte concatenation of its inputs. -/
def tkOk : Toolkit := ⟨fun n m => some (n ++ m), fun l => some l.flatten, fun i a => some (i ++ a)⟩

/-- Concrete filesystem with only a narration for story `a` and no
background music. -/
def fsNarrOnly : FS := fun p =>
  match p with
  | .narration "a" => some ['n', '1']
  | _ => none

/-- Concrete filesystem with no artifacts at all for story `a`. -/
def fsBare : FS := fun _ => none

/-- Concrete filesystem where story `a` has a narration and background
music exists, and story `b` has nothing. -/
def fsMixErr : FS := fun p =>
  match p with
  | .narration "a" => some ['n']
  | .bgm => some ['m']
  | _ => none

/-- Concrete filesystem with two synthesized chunk files for story `a`. -/
def fsTwoChunks : FS := fun pth =>
  match pth with
  | .tempChunk "a" 0 => some ['x']
  | .tempChunk "a" 1 => some ['y']
  | _ => none

/-- Concrete filesystem holding only the story file for `a`, whose text
cleans to the single short paragraph `hi`. -/
def fsStoryHi : FS := fun p =>
  match p with
  | .story "a" => some "hi".data
  | _ => none

/-- Concrete filesystem where the narration artifact of story `a` exists
but is the empty file, and no background music exists. -/
def fsEmptyNarr : FS := fun p =>
  match p with
  | .narration "a" => some []
  | _ => none

/-- Concrete filesystem where the image and mixed-audio artifacts of
story `a` exist but are empty files. -/
def fsEmptyAV : FS := fun p =>
  match p with
  | .image "a" => some []
  | .mixed "a" => some []
  | _ => none

/-!
General lemmas about the text model, used by the chunking claims.
-/

theorem split2_ne_nil (s : Str) : split2 s ≠ [] := by
  induction s using split2.induct with
  | case1 => simp [split2]
  | case2 c => simp [split2]
  | case3 a b rest h ih => simp [split2, h]
  | case4 a b rest h heq ih => simp only [split2, if_neg h, heq]; simp
  | case5 a b rest h r rs heq ih => simp only [split2, if_neg h, heq]; simp

theorem joinSep_cons (sep x : Str) (l : List Str) (h : l ≠ []) :
    joinSep sep (x :: l) = x ++ sep ++ joinSep sep l := by
  cases l with
  | nil => exact absurd rfl h
  | cons y ys => rfl

theorem joinSep_cons_head (sep : Str) (a : Char) (r : Str) (rs : List Str) :
    joinSep sep ((a :: r) :: rs) = a :: joinSep sep (r :: rs) := by
  cases rs with
  | nil => rfl
  | cons y ys => rfl

/-- Joining on the paragraph separator is a left inverse of `split2`. -/
theorem joinSep_split2 (s : Str) : joinSep nl2 (split2 s) = s := by
  induction s using split2.induct with
  | case1 => rfl
  | case2 c => rfl
  | case3 a b rest h ih =>
    obtain ⟨rfl, rfl⟩ := h
    rw [split2, if_pos ⟨rfl, rfl⟩, joinSep_cons _ _ _ (split2_ne_nil rest), ih]
    rfl
  | case4 a b rest h heq ih => exact absurd heq (split2_ne_nil _)
  | case5 a b rest h r rs heq ih =>
    rw [split2, if_neg h, heq, joinSep_cons_head]
    rw [heq] at ih
    rw [ih]

theorem dropWs_nil : dropWs [] = [] := rfl

theorem dropWs_append (a b : Str) : dropWs (a ++ b) = dropWs a ++ dropWs b :=
  List.filter_append a b

theorem dropWs_nl2 : dropWs nl2 = [] := by decide

theorem dropWs_joinSep (l : List Str) : dropWs (joinSep nl2 l) = (l.map dropWs).flatten := by
  induction l with
  | nil => rfl
  | cons x xs ih =>
    cases xs with
    | nil => simp [joinSep]
    | cons y ys =>
      rw [joinSep_cons _ _ _ (by simp), dropWs_append, dropWs_append, dropWs_nl2, ih]
      simp

theorem dropWs_dropWhile (s : Str) : dropWs (s.dropWhile isPySpace) = dropWs s := by
  induction s with
  | nil => rfl
  | cons c rest ih =>
    by_cases h : isPySpace c
    · rw [List.dropWhile_cons_of_pos h, ih]
      simp [dropWs, List.filter_cons, h]
    · rw [List.dropWhile_cons_of_neg h]

theorem dropWs_reverse (s : Str) : dropWs s.reverse = (dropWs s).reverse :=
  List.filter_reverse _ _

theorem dropWs_pyStrip (s : Str) : dropWs (pyStrip s) = dropWs s := by
  unfold pyStrip
  rw [dropWs_reverse, dropWs_dropWhile, dropWs_reverse, List.reverse_reverse,
    dropWs_dropWhile]

/-- Master accounting lemma for the greedy loop: up to whitespace, the
produced chunks carry exactly the pending chunks, the accumulator, and
the remaining paragraphs, in order. -/
theorem chunkLoop_dropWs (paras : List Str) (chunks : List Str) (cur : Str) :
    ((chunkLoop paras chunks cur).map dropWs).flatten =
      (chunks.map dropWs).flatten ++ dropWs cur ++ (paras.map dropWs).flatten := by
  induction paras generalizing chunks cur with
  | nil =>
    by_cases h : cur = []
    · simp [chunkLoop, h, dropWs_nil]
    · simp [chunkLoop, h, dropWs_pyStrip]
  | cons p rest ih =>
    simp only [chunkLoop]
    by_cases h : cur.length + p.length < maxChars
    · rw [if_pos h, ih]
      simp [dropWs_append, dropWs_nl2]
    · rw [if_neg h, ih]
      by_cases hc : cur = []
      · simp [hc, dropWs_append, dropWs_nl2, dropWs_nil]
      · simp [hc, dropWs_append, dropWs_nl2, dropWs_pyStrip]

theorem length_dropWhile_le (p : Char → Bool) (s : Str) :
    (s.dropWhile p).length ≤ s.length := by
  induction s with
  | nil => simp
  | cons c rest ih =>
    by_cases h : p c
    · rw [List.dropWhile_cons_of_pos h]
      exact Nat.le_trans ih (by simp)
    · rw [List.dropWhile_cons_of_neg h]

theorem pyStrip_length_le (s : Str) : (pyStrip s).length ≤ s.length := by
  unfold pyStrip
  rw [List.length_reverse]
  refine Nat.le_trans (length_dropWhile_le _ _) ?_
  rw [List.length_reverse]
  exact length_dropWhile_le _ _

/-- Stripping absorbs a trailing paragraph separator. -/
theorem pyStrip_append_nl2 (s : Str) : pyStrip (s ++ nl2) = pyStrip s := by
  unfold pyStrip
  rw [List.dropWhile_append]
  by_cases h : (s.dropWhile isPySpace).isEmpty
  · rw [if_pos h]
    have h3 : s.dropWhile isPySpace = [] := by
      cases heq : s.dropWhile isPySpace with
      | nil => rfl
      | cons c cs => rw [heq] at h; simp [List.isEmpty] at h
    rw [h3]
    decide
  · rw [if_neg h, List.reverse_append]
    show ((('\n' :: '\n' :: []) ++ (s.dropWhile isPySpace).reverse).dropWhile isPySpace).reverse = _
    rw [List.cons_append, List.cons_append, List.nil_append,
      List.dropWhile_cons_of_pos (by decide), List.dropWhile_cons_of_pos (by decide)]

/-- Invariant proof for the chunk ceiling: if every pending paragraph is
below the ceiling and the accumulator is either empty or a
below-ceiling prefix followed by the separator, every produced chunk
fits in the ceiling. -/
theorem chunkLoop_bound (paras : List Str) (chunks : List Str) (cur : Str)
    (hp : ∀ p ∈ paras, p.length < maxChars)
    (hc : ∀ c ∈ chunks, c.length ≤ maxChars)
    (hcur : cur = [] ∨ ∃ u, cur = u ++ nl2 ∧ u.length < maxChars) :
    ∀ c ∈ chunkLoop paras chunks cur, c.length ≤ maxChars := by
  induction paras generalizing chunks cur with
  | nil =>
    intro c hmem
    rcases hcur with h | ⟨u, rfl, hu⟩
    · rw [chunkLoop, if_pos h] at hmem
      exact hc c hmem
    · rw [chunkLoop, if_neg (by simp [nl2])] at hmem
      rcases List.mem_append.mp hmem with hmem | hmem
      · exact hc c hmem
      · rw [List.mem_singleton.mp hmem, pyStrip_append_nl2]
        exact Nat.le_trans (pyStrip_length_le u) (Nat.le_of_lt hu)
  | cons p rest ih =>
    intro c hmem
    have hp0 : p.length < maxChars := hp p (by simp)
    have hp' : ∀ q ∈ rest, q.length < maxChars := fun q hq => hp q (by simp [hq])
    rw [chunkLoop] at hmem
    by_cases h : cur.length + p.length < maxChars
    · rw [if_pos h] at hmem
      refine ih _ _ hp' hc (Or.inr ⟨cur ++ p, by rw [List.append_assoc], ?_⟩) c hmem
      rw [List.length_append]
      exact h
    · rw [if_neg h] at hmem
      refine ih _ _ hp' ?_ (Or.inr ⟨p, rfl, hp0⟩) c hmem
      intro d hd
      rcases hcur with hce | ⟨u, rfl, hu⟩
      · rw [if_pos hce] at hd
        exact hc d hd
      · rw [if_neg (by simp [nl2])] at hd
        rcases List.mem_append.mp hd with hd | hd
        · exact hc d hd
        · rw [List.mem_singleton.mp hd, pyStrip_append_nl2]
          exact Nat.le_trans (pyStrip_length_le u) (Nat.le_of_lt hu)

/-!
Auxiliary lemmas for evaluating the cleaning and chunking functions on a
long special-character-free text, used by the oversized-paragraph
counterexample.
-/

theorem splitLines_no_nl (s : Str) : (∀ c ∈ s, c ≠ '\n') → splitLines s = [s] := by
  induction s with
  | nil => intro _; rfl
  | cons c rest ih =>
    intro h
    rw [splitLines, if_neg (h c (by simp)), ih (fun d hd => h d (by simp [hd]))]

theorem split2_no_nl (s : Str) : (∀ c ∈ s, c ≠ '\n') → split2 s = [s] := by
  induction s using split2.induct with
  | case1 => intro _; rfl
  | case2 c => intro _; rfl
  | case3 a b rest h ih => intro hn; exact absurd h.1 (hn a (by simp))
  | case4 a b rest h heq ih => intro _; exact absurd heq (split2_ne_nil _)
  | case5 a b rest h r rs heq ih =>
    intro hn
    have h2 := ih (fun d hd => hn d (List.mem_cons_of_mem a hd))
    rw [heq] at h2
    obtain ⟨rfl, rfl⟩ := List.cons.injEq .. ▸ h2
    rw [split2, if_neg h, heq]

theorem stripBold_no_star (s : Str) : (∀ c ∈ s, c ≠ '*') → stripBold s = s := by
  induction s using stripBold.induct with
  | case1 => intro _; rfl
  | case2 c => intro _; rfl
  | case3 a b rest h ih => intro hn; exact absurd h.1 (hn a (by simp))
  | case4 a b rest h ih =>
    intro hn
    rw [stripBold, if_neg h, ih (fun d hd => hn d (List.mem_cons_of_mem a hd))]

theorem collapseNlAux_no_nl (s : Str) : ∀ run, (∀ c ∈ s, c ≠ '\n') → collapseNlAux run s = s := by
  induction s with
  | nil => intro _ _; rfl
  | cons c rest ih =>
    intro run h
    rw [collapseNlAux, if_neg (by simp [h c (by simp)]), ih 0 (fun d hd => h d (by simp [hd]))]

theorem pyStrip_no_ws (s : Str) (h : ∀ c ∈ s, isPySpace c = false) : pyStrip s = s := by
  have h1 : s.dropWhile isPySpace = s := by
    cases s with
    | nil => rfl
    | cons c rest => rw [List.dropWhile_cons_of_neg (by simp [h c (by simp)])]
  have h2 : s.reverse.dropWhile isPySpace = s.reverse := by
    cases heq : s.reverse with
    | nil => rfl
    | cons c rest =>
      rw [List.dropWhile_cons_of_neg
        (by simp [h c (by rw [← List.mem_reverse, heq]; simp)])]
  unfold pyStrip
  rw [h1, h2, List.reverse_reverse]

theorem clean_replicate :
    clean_story_text (List.replicate 4001 'a') = List.replicate 4001 'a' := by
  have hmem : ∀ c ∈ List.replicate 4001 'a', c = 'a' :=
    fun c hc => List.eq_of_mem_replicate hc
  have hrep : List.replicate 4001 'a' = 'a' :: List.replicate 4000 'a' :=
    List.replicate_succ 'a' 4000
  unfold clean_story_text removeHeadings
  rw [splitLines_no_nl _ (fun c hc => by rw [hmem c hc]; decide)]
  have hh : isHeadingLine (List.replicate 4001 'a') = false := by
    rw [hrep]
    unfold isHeadingLine
    rw [List.head?_cons, show ((some 'a' == some '#')) = false from rfl, Bool.false_and]
  rw [List.map_singleton, if_neg (by rw [hh]; exact Bool.false_ne_true)]
  show pyStrip (collapseNl (stripBold (joinSep ['\n'] [List.replicate 4001 'a']))) = _
  rw [show joinSep ['\n'] [List.replicate 4001 'a'] = List.replicate 4001 'a' from rfl]
  rw [stripBold_no_star _ (fun c hc => by rw [hmem c hc]; decide)]
  unfold collapseNl
  rw [collapseNlAux_no_nl _ 0 (fun c hc => by rw [hmem c hc]; decide)]
  exact pyStrip_no_ws _ (fun c hc => by rw [hmem c hc]; decide)

theorem chunkSplit_replicate :
    chunkSplit (List.replicate 4001 'a') = [List.replicate 4001 'a'] := by
  unfold chunkSplit chunksOf
  rw [split2_no_nl _ (fun c hc => by rw [List.eq_of_mem_replicate hc]; decide)]
  rw [chunkLoop,
    if_neg (by simp only [List.length_nil, List.length_replicate, maxChars]; omega),
    if_pos rfl]
  rw [chunkLoop,
    if_neg (fun hcontra => by
      have h2 := (List.append_eq_nil.mp hcontra).2
      simp [nl2] at h2)]
  rw [pyStrip_append_nl2,
    pyStrip_no_ws _ (fun c hc => by rw [List.eq_of_mem_replicate hc]; decide)]
  rfl

/-- C1 counterexample: a cleaned text that is a single paragraph of 4001
characters (it is its own cleaned form) produces a single chunk of
length 4001, exceeding the 4000-character ceiling, so the chunk bound of
the claim fails on such inputs. -/
theorem c1_chunk_bound_cx :
    clean_story_text (List.replicate 4001 'a') = List.replicate 4001 'a' ∧
    chunkSplit (List.replicate 4001 'a') = [List.replicate 4001 'a'] ∧
    ∃ c, c ∈ chunkSplit (List.replicate 4001 'a') ∧ maxChars < c.length := by
  refine ⟨clean_replicate, chunkSplit_replicate, List.replicate 4001 'a', ?_, ?_⟩
  · rw [chunkSplit_replicate]
    exact List.mem_singleton_self _
  · simp only [List.length_replicate, maxChars]
    omega

/-- C1 (amended): provided no paragraph of the cleaned text reaches the
4000-character ceiling, every chunk produced by the greedy
paragraph-accumulation split has length at most 4000; and in all cases
the chunks joined in their original order reproduce the cleaned text up
to whitespace. -/
theorem c1_chunk_bound_amended (t : Str)
    (h : ∀ p ∈ split2 t, p.length < maxChars) :
    (∀ c ∈ chunkSplit t, c.length ≤ maxChars) ∧
    dropWs (joinSep nl2 (chunkSplit t)) = dropWs t := by
  constructor
  · exact chunkLoop_bound (split2 t) [] [] h (by simp) (Or.inl rfl)
  · rw [dropWs_joinSep]
    show ((chunkLoop (split2 t) [] []).map dropWs).flatten = _
    rw [chunkLoop_dropWs]
    conv_rhs => rw [← joinSep_split2 t]
    rw [dropWs_joinSep]
    simp [dropWs]

/-- Witness for the amended C1 theorem at a concrete two-paragraph text. -/
theorem c1_chunk_bound_amended_witness :
    (∀ c ∈ chunkSplit "ab\n\ncd".data, c.length ≤ maxChars) ∧
    dropWs (joinSep nl2 (chunkSplit "ab\n\ncd".data)) = dropWs "ab\n\ncd".data :=
  c1_chunk_bound_amended "ab\n\ncd".data (by decide)

/-!
General lemmas about the batch loop.
-/

theorem runBatch_nil (outP : String → Path) (run : String → FS → StageResult) (fs : FS) :
    runBatch outP run [] fs = ⟨fs, [], 0, 0⟩ := rfl

theorem runBatch_cons_skip (outP : String → Path) (run : String → FS → StageResult)
    (s : String) (rest : List String) (fs : FS) (h : (fs (outP s)).isSome) :
    runBatch outP run (s :: rest) fs =
      ⟨(runBatch outP run rest fs).fs, (runBatch outP run rest fs).events,
       1 + (runBatch outP run rest fs).ok, (runBatch outP run rest fs).fail⟩ := by
  rw [runBatch, if_pos h]

theorem runBatch_cons_run (outP : String → Path) (run : String → FS → StageResult)
    (s : String) (rest : List String) (fs : FS) (h : ¬ (fs (outP s)).isSome) :
    runBatch outP run (s :: rest) fs =
      ⟨(runBatch outP run rest (run s fs).1).fs,
       (run s fs).2.1 ++ (runBatch outP run rest (run s fs).1).events,
       (if stageOk (run s fs).2.2 then 1 else 0) + (runBatch outP run rest (run s fs).1).ok,
       (if stageOk (run s fs).2.2 then 0 else 1) + (runBatch outP run rest (run s fs).1).fail⟩ := by
  rw [runBatch, if_neg h]

theorem runBatch_total (outP : String → Path) (run : String → FS → StageResult)
    (stories : List String) (fs : FS) :
    (runBatch outP run stories fs).ok + (runBatch outP run stories fs).fail =
      stories.length := by
  induction stories generalizing fs with
  | nil => rfl
  | cons s rest ih =>
    by_cases h : (fs (outP s)).isSome
    · rw [runBatch_cons_skip _ _ _ _ _ h]
      have := ih fs
      simp only [List.length_cons]
      omega
    · rw [runBatch_cons_run _ _ _ _ _ h]
      have := ih (run s fs).1
      simp only [List.length_cons]
      by_cases hok : stageOk (run s fs).2.2
      · rw [if_pos hok, if_pos hok]
        omega
      · rw [if_neg hok, if_neg hok]
        omega

theorem runBatch_append (outP : String → Path) (run : String → FS → StageResult)
    (xs ys : List String) (fs : FS) :
    runBatch outP run (xs ++ ys) fs =
      ⟨(runBatch outP run ys (runBatch outP run xs fs).fs).fs,
       (runBatch outP run xs fs).events ++
         (runBatch outP run ys (runBatch outP run xs fs).fs).events,
       (runBatch outP run xs fs).ok +
         (runBatch outP run ys (runBatch outP run xs fs).fs).ok,
       (runBatch outP run xs fs).fail +
         (runBatch outP run ys (runBatch outP run xs fs).fs).fail⟩ := by
  induction xs generalizing fs with
  | nil =>
    simp only [List.nil_append, runBatch_nil, Nat.zero_add]
  | cons s rest ih =>
    rw [List.cons_append]
    by_cases h : (fs (outP s)).isSome
    · rw [runBatch_cons_skip _ _ _ _ _ h, runBatch_cons_skip _ _ _ _ _ h, ih]
      dsimp only
      congr 1
      omega
    · rw [runBatch_cons_run _ _ _ _ _ h, runBatch_cons_run _ _ _ _ _ h, ih]
      dsimp only
      congr 1
      · simp
      · omega
      · omega

/-- C2: for every story and every stage (narration, mix, video), if the
stage's output artifact already exists when the stage is run, the stage
performs no operation at all (empty trace, in particular no synthesis or
transcoding), leaves the whole filesystem — hence the artifact —
untouched, and counts the story as ok; consequently running a stage a
second time after a run that left the artifact present is a no-op. -/
theorem c2_stage_skip_idempotent (tts : Tts) (tk : Toolkit) (s : String) (fs : FS) :
    ((fs (Path.narration s)).isSome →
      step1_narrations tts tk [s] fs = ⟨fs, [], 1, 0⟩) ∧
    ((fs (Path.mixed s)).isSome → step2_mix tk [s] fs = ⟨fs, [], 1, 0⟩) ∧
    ((fs (Path.video s)).isSome → step3_videos tk [s] fs = ⟨fs, [], 1, 0⟩) ∧
    (((step1_narrations tts tk [s] fs).fs (Path.narration s)).isSome →
      step1_narrations tts tk [s] ((step1_narrations tts tk [s] fs).fs) =
        ⟨(step1_narrations tts tk [s] fs).fs, [], 1, 0⟩) := by
  have h1 : ∀ g : FS, (g (Path.narration s)).isSome →
      step1_narrations tts tk [s] g = ⟨g, [], 1, 0⟩ := by
    intro g hg
    rw [step1_narrations, runBatch_cons_skip _ _ _ _ _ hg, runBatch_nil]
    rfl
  refine ⟨h1 fs, ?_, ?_, fun h => h1 _ h⟩
  · intro h
    rw [step2_mix, runBatch_cons_skip _ _ _ _ _ h, runBatch_nil]
    rfl
  · intro h
    rw [step3_videos, runBatch_cons_skip _ _ _ _ _ h, runBatch_nil]
    rfl

theorem c2_stage_skip_idempotent_witness :
    step1_narrations ttsFail tkFail ["a"] fsAllOut = ⟨fsAllOut, [], 1, 0⟩ ∧
    step2_mix tkFail ["a"] fsAllOut = ⟨fsAllOut, [], 1, 0⟩ ∧
    step3_videos tkFail ["a"] fsAllOut = ⟨fsAllOut, [], 1, 0⟩ :=
  ⟨(c2_stage_skip_idempotent ttsFail tkFail "a" fsAllOut).1 (by decide),
   (c2_stage_skip_idempotent ttsFail tkFail "a" fsAllOut).2.1 (by decide),
   (c2_stage_skip_idempotent ttsFail tkFail "a" fsAllOut).2.2.1 (by decide)⟩

/-- C5: when the narration artifact exists and no background-music track
is present, the mixer writes the mixed artifact as a byte-identical copy
of the narration, reports success, and performs no transcoding work. -/
theorem c5_mix_fallback (tk : Toolkit) (s : String) (fs : FS) (c : Str)
    (hn : fs (Path.narration s) = some c) (hb : fs Path.bgm = none) :
    mix_audio tk s fs =
      (fsWrite fs (Path.mixed s) c,
       [.copy (Path.narration s) (Path.mixed s)],
       .ok (some (Path.mixed s))) ∧
    (fsWrite fs (Path.mixed s) c) (Path.mixed s) = some c ∧
    ∀ e ∈ [Event.copy (Path.narration s) (Path.mixed s)], e.isWork = false := by
  refine ⟨?_, ?_, ?_⟩
  · rw [mix_audio, hn, hb]
  · simp [fsWrite]
  · intro e he
    rw [List.mem_singleton.mp he]
    rfl

theorem c5_mix_fallback_witness :
    mix_audio tkFail "a" fsNarrOnly =
      (fsWrite fsNarrOnly (Path.mixed "a") ['n', '1'],
       [.copy (Path.narration "a") (Path.mixed "a")],
       .ok (some (Path.mixed "a"))) ∧
    (fsWrite fsNarrOnly (Path.mixed "a") ['n', '1']) (Path.mixed "a") = some ['n', '1'] ∧
    ∀ e ∈ [Event.copy (Path.narration "a") (Path.mixed "a")], e.isWork = false :=
  c5_mix_fallback tkFail "a" fsNarrOnly ['n', '1'] rfl rfl

/-- C6: a stage with a missing required input artifact returns failure
with an empty trace (no media-toolkit operation at all): the mixer with
a missing narration, and the video composer with a missing image or a
missing mixed-audio artifact; in the batch loop the story is counted as
failed. -/
theorem c6_missing_input_fails (tk : Toolkit) (s : String) (fs : FS) (im : Str) :
    (fs (Path.narration s) = none → mix_audio tk s fs = (fs, [], .ok none)) ∧
    (fs (Path.narration s) = none → fs (Path.mixed s) = none →
      step2_mix tk [s] fs = ⟨fs, [], 0, 1⟩) ∧
    (fs (Path.image s) = none → create_video tk s fs = (fs, [], .ok none)) ∧
    (fs (Path.image s) = some im → fs (Path.mixed s) = none →
      create_video tk s fs = (fs, [], .ok none)) := by
    refine ⟨?_, ?_, ?_, ?_⟩
    · intro h
      rw [mix_audio, h]
    · intro h hm
      have hmix : mix_audio tk s fs = (fs, [], .ok none) := by rw [mix_audio, h]
      rw [step2_mix, runBatch_cons_run _ _ _ _ _ (by rw [hm]; simp), hmix, runBatch_nil]
      rfl
    · intro h
      rw [create_video, h]
    · intro h hm
      rw [create_video, h, hm]

theorem c6_missing_input_fails_witness :
    mix_audio tkOk "a" fsBare = (fsBare, [], .ok none) ∧
    step2_mix tkOk ["a"] fsBare = ⟨fsBare, [], 0, 1⟩ ∧
    create_video tkOk "a" fsBare = (fsBare, [], .ok none) :=
  ⟨(c6_missing_input_fails tkOk "a" fsBare []).1 rfl,
   (c6_missing_input_fails tkOk "a" fsBare []).2.1 rfl rfl,
   (c6_missing_input_fails tkOk "a" fsBare []).2.2.1 rfl⟩

/-- C7: batch loops are total — every story of the batch is accounted
for in exactly one of the two counters for all three stages; the loop on
a split batch is the loop on the first part followed by the loop on the
second part (so processing always continues with the remaining
stories); and a stage error on one story is caught at the story
boundary, turned into a failure count, and the loop proceeds with the
rest of the batch. -/
theorem c7_failure_isolation (tts : Tts) (tk : Toolkit)
    (stories xs ys : List String) (s : String) (fs fs1 : FS) (evs : List Event) :
    ((step1_narrations tts tk stories fs).ok +
      (step1_narrations tts tk stories fs).fail = stories.length) ∧
    ((step2_mix tk stories fs).ok + (step2_mix tk stories fs).fail = stories.length) ∧
    ((step3_videos tk stories fs).ok + (step3_videos tk stories fs).fail = stories.length) ∧
    (step2_mix tk (xs ++ ys) fs =
      ⟨(step2_mix tk ys (step2_mix tk xs fs).fs).fs,
       (step2_mix tk xs fs).events ++ (step2_mix tk ys (step2_mix tk xs fs).fs).events,
       (step2_mix tk xs fs).ok + (step2_mix tk ys (step2_mix tk xs fs).fs).ok,
       (step2_mix tk xs fs).fail + (step2_mix tk ys (step2_mix tk xs fs).fs).fail⟩) ∧
    (fs (Path.mixed s) = none → mix_audio tk s fs = (fs1, evs, .error ()) →
      step2_mix tk (s :: ys) fs =
        ⟨(step2_mix tk ys fs1).fs, evs ++ (step2_mix tk ys fs1).events,
         (step2_mix tk ys fs1).ok, 1 + (step2_mix tk ys fs1).fail⟩) := by
  refine ⟨runBatch_total .., runBatch_total .., runBatch_total .., runBatch_append .., ?_⟩
  intro h herr
  rw [step2_mix, runBatch_cons_run _ _ _ _ _ (by rw [h]; simp), herr]
  simp [stageOk]

theorem foldl_fsDelete_apply (files : List Path) (g : FS) (x : Path) :
    (files.foldl fsDelete g) x = if x ∈ files then none else g x := by
  induction files generalizing g with
  | nil => simp
  | cons y ys ih =>
    rw [List.foldl_cons, ih]
    by_cases hx : x ∈ ys
    · simp [hx]
    · by_cases hxy : x = y
      · simp [hx, hxy, fsDelete]
      · simp [hx, hxy, fsDelete]

/-- C3: if exactly one chunk file was produced, it is renamed to the
narration artifact (content moved byte-identically, no toolkit call at
all); if two or more were produced, the concat manifest is written,
ffmpeg concatenates with the stream-copy flag the chunk contents in
their original order, and on success the narration artifact holds the
concatenation result while every chunk file and the manifest are
deleted. -/
theorem c3_concat_rename (tk : Toolkit) (s : String) (fs : FS)
    (p q : Path) (rest : List Path) (i : Nat) (c out : Str)
    (hp : p = Path.tempChunk s i) (hc : fs p = some c)
    (hfiles : ∀ x ∈ p :: q :: rest, ∃ j, x = Path.tempChunk s j)
    (hcat : tk.concat ((p :: q :: rest).map (fun x => (fs x).getD [])) = some out) :
    (concatOrRename tk s [p] fs =
       (fsWrite (fsDelete fs p) (Path.narration s) c,
        [.rename p (Path.narration s)], .ok (some (Path.narration s))) ∧
     (fsWrite (fsDelete fs p) (Path.narration s) c) (Path.narration s) = some c ∧
     (fsWrite (fsDelete fs p) (Path.narration s) c) p = none) ∧
    ((concatOrRename tk s (p :: q :: rest) fs).2.2 = .ok (some (Path.narration s)) ∧
     (concatOrRename tk s (p :: q :: rest) fs).1 (Path.narration s) = some out ∧
     (∀ x ∈ p :: q :: rest, (concatOrRename tk s (p :: q :: rest) fs).1 x = none) ∧
     (concatOrRename tk s (p :: q :: rest) fs).1 (Path.concatManifest s) = none ∧
     (concatOrRename tk s (p :: q :: rest) fs).2.1 =
       [.write (Path.concatManifest s), .ffmpegConcat s true,
        .unlink (Path.concatManifest s)] ++ (p :: q :: rest).map .unlink) := by
  have harm2 : concatOrRename tk s (p :: q :: rest) fs =
      ((p :: q :: rest).foldl fsDelete
         (fsDelete (fsWrite (fsWrite fs (Path.concatManifest s)
             (manifestContent (p :: q :: rest))) (Path.narration s) out)
           (Path.concatManifest s)),
       [.write (Path.concatManifest s), .ffmpegConcat s true,
        .unlink (Path.concatManifest s)] ++ (p :: q :: rest).map .unlink,
       .ok (some (Path.narration s))) := by
    simp only [concatOrRename, hcat]
  have hnarr : Path.narration s ∉ p :: q :: rest := by
    intro hm
    obtain ⟨j, hj⟩ := hfiles _ hm
    exact Path.noConfusion hj
  have hman : Path.concatManifest s ∉ p :: q :: rest := by
    intro hm
    obtain ⟨j, hj⟩ := hfiles _ hm
    exact Path.noConfusion hj
  refine ⟨⟨?_, ?_, ?_⟩, ?_, ?_, ?_, ?_, ?_⟩
  · show (fsWrite (fsDelete fs p) (Path.narration s) ((fs p).getD []), _, _) = _
    rw [hc]
    rfl
  · simp [fsWrite]
  · subst hp
    simp [fsWrite, fsDelete]
  · rw [harm2]
  · rw [harm2]
    dsimp only
    rw [foldl_fsDelete_apply, if_neg hnarr, fsDelete, if_neg (by subst hp; simp), fsWrite,
      if_pos rfl]
  · intro x hx
    rw [harm2]
    dsimp only
    rw [foldl_fsDelete_apply, if_pos hx]
  · rw [harm2]
    dsimp only
    rw [foldl_fsDelete_apply, if_neg hman, fsDelete, if_pos rfl]
  · rw [harm2]

theorem c3_concat_rename_witness :
    (concatOrRename tkOk "a" [Path.tempChunk "a" 0] fsTwoChunks =
       (fsWrite (fsDelete fsTwoChunks (Path.tempChunk "a" 0)) (Path.narration "a") ['x'],
        [.rename (Path.tempChunk "a" 0) (Path.narration "a")],
        .ok (some (Path.narration "a"))) ∧
     (fsWrite (fsDelete fsTwoChunks (Path.tempChunk "a" 0)) (Path.narration "a") ['x'])
         (Path.narration "a") = some ['x'] ∧
     (fsWrite (fsDelete fsTwoChunks (Path.tempChunk "a" 0)) (Path.narration "a") ['x'])
         (Path.tempChunk "a" 0) = none) ∧
    ((concatOrRename tkOk "a" [Path.tempChunk "a" 0, Path.tempChunk "a" 1] fsTwoChunks).2.2 =
       .ok (some (Path.narration "a")) ∧
     (concatOrRename tkOk "a" [Path.tempChunk "a" 0, Path.tempChunk "a" 1] fsTwoChunks).1
         (Path.narration "a") = some ['x', 'y'] ∧
     (∀ x ∈ [Path.tempChunk "a" 0, Path.tempChunk "a" 1],
       (concatOrRename tkOk "a" [Path.tempChunk "a" 0, Path.tempChunk "a" 1] fsTwoChunks).1 x =
         none) ∧
     (concatOrRename tkOk "a" [Path.tempChunk "a" 0, Path.tempChunk "a" 1] fsTwoChunks).1
         (Path.concatManifest "a") = none ∧
     (concatOrRename tkOk "a" [Path.tempChunk "a" 0, Path.tempChunk "a" 1] fsTwoChunks).2.1 =
       [.write (Path.concatManifest "a"), .ffmpegConcat "a" true,
        .unlink (Path.concatManifest "a")] ++
         [Path.tempChunk "a" 0, Path.tempChunk "a" 1].map .unlink) :=
  c3_concat_rename tkOk "a" fsTwoChunks (Path.tempChunk "a" 0) (Path.tempChunk "a" 1) [] 0
    ['x'] ['x', 'y'] rfl rfl
    (by intro x hx
        simp only [List.mem_cons, List.not_mem_nil, or_false] at hx
        rcases hx with rfl | rfl
        · exact ⟨0, rfl⟩
        · exact ⟨1, rfl⟩)
    (by decide)

/-- C4: with an always-failing synthesis oracle, the first chunk is
attempted exactly 3 times with a fixed 2-second delay between successive
attempts and no other operation; the exhausted retry raises, the raised
error propagates out of `generate_narration`, and the batch loop catches
it and marks the story's narration stage failed. With a
first-attempt-successful oracle and two chunks, one 0.5-second delay is
inserted between the two chunk submissions and none elsewhere (in
particular no retry delay). -/
theorem c4_retry_discipline (tts tts' : Tts) (tk : Toolkit) (s : String)
    (raw c0 c1 c2 a1 a2 : Str) (cs : List Str) (fs : FS)
    (hfail : ∀ c a, tts c a = none)
    (hs : fs (Path.story s) = some raw)
    (hn : fs (Path.narration s) = none)
    (hcs : chunkSplit (clean_story_text raw) = c0 :: cs)
    (h1 : tts' c1 0 = some a1) (h2 : tts' c2 0 = some a2) :
    generate_narration tts tk s fs =
      (fs, [.ttsCall c0 0, .sleep 2000, .ttsCall c0 1, .sleep 2000, .ttsCall c0 2],
       .error ()) ∧
    step1_narrations tts tk [s] fs =
      ⟨fs, [.ttsCall c0 0, .sleep 2000, .ttsCall c0 1, .sleep 2000, .ttsCall c0 2], 0, 1⟩ ∧
    synthChunks tts' s 2 [c1, c2] 0 fs =
      (fsWrite (fsWrite fs (Path.tempChunk s 0) a1) (Path.tempChunk s 1) a2,
       [.ttsCall c1 0, .write (Path.tempChunk s 0), .sleep 500, .ttsCall c2 0,
        .write (Path.tempChunk s 1)],
       .ok [Path.tempChunk s 0, Path.tempChunk s 1]) := by
  have hretry : ttsRetry (tts c0) c0 ttsAttempts =
      ([.ttsCall c0 0, .sleep 2000, .ttsCall c0 1, .sleep 2000, .ttsCall c0 2], none) := by
    simp [ttsRetry, ttsAttempts, hfail]
  have hgen : generate_narration tts tk s fs =
      (fs, [.ttsCall c0 0, .sleep 2000, .ttsCall c0 1, .sleep 2000, .ttsCall c0 2],
       .error ()) := by
    simp only [generate_narration, hs, hcs, synthChunks, hretry]
  refine ⟨hgen, ?_, ?_⟩
  · rw [step1_narrations, runBatch_cons_run _ _ _ _ _ (by rw [hn]; simp), hgen, runBatch_nil]
    simp [stageOk]
  · simp only [synthChunks, ttsRetry, ttsAttempts, h1, h2]
    simp [Except.map]

theorem c4_retry_discipline_witness :
    generate_narration ttsFail tkFail "a" fsStoryHi =
      (fsStoryHi,
       [.ttsCall "hi".data 0, .sleep 2000, .ttsCall "hi".data 1, .sleep 2000,
        .ttsCall "hi".data 2],
       .error ()) ∧
    step1_narrations ttsFail tkFail ["a"] fsStoryHi =
      ⟨fsStoryHi,
       [.ttsCall "hi".data 0, .sleep 2000, .ttsCall "hi".data 1, .sleep 2000,
        .ttsCall "hi".data 2], 0, 1⟩ ∧
    synthChunks ttsOk "a" 2 [['h'], ['h']] 0 fsStoryHi =
      (fsWrite (fsWrite fsStoryHi (Path.tempChunk "a" 0) ['x']) (Path.tempChunk "a" 1) ['x'],
       [.ttsCall ['h'] 0, .write (Path.tempChunk "a" 0), .sleep 500, .ttsCall ['h'] 0,
        .write (Path.tempChunk "a" 1)],
       .ok [Path.tempChunk "a" 0, Path.tempChunk "a" 1]) :=
  c4_retry_discipline ttsFail ttsOk tkFail "a" "hi".data "hi".data ['h'] ['h'] ['x'] ['x']
    [] fsStoryHi (fun _ _ => rfl) rfl rfl (by decide) rfl rfl

/-- C10: the cleaned empty text still yields exactly one chunk, the
empty string, and that empty chunk is submitted to the remote
speech-synthesis call (a `ttsCall` with empty text appears in the
trace); the stage neither skips nor fails, finishing by renaming the
single chunk file to the narration artifact. -/
theorem c10_empty_text_synthesized (tts : Tts) (tk : Toolkit) (s : String)
    (raw a : Str) (fs : FS)
    (hs : fs (Path.story s) = some raw)
    (hclean : clean_story_text raw = [])
    (htts : tts [] 0 = some a) :
    chunkSplit [] = [[]] ∧
    generate_narration tts tk s fs =
      (fsWrite (fsDelete (fsWrite fs (Path.tempChunk s 0) a) (Path.tempChunk s 0))
         (Path.narration s) a,
       [.ttsCall [] 0, .write (Path.tempChunk s 0),
        .rename (Path.tempChunk s 0) (Path.narration s)],
       .ok (some (Path.narration s))) := by
  refine ⟨by decide, ?_⟩
  have hchunks : chunkSplit (clean_story_text raw) = [[]] := by
    rw [hclean]
    decide
  have hsynth : synthChunks tts s 1 [[]] 0 fs =
      (fsWrite fs (Path.tempChunk s 0) a, [.ttsCall [] 0, .write (Path.tempChunk s 0)],
       .ok [Path.tempChunk s 0]) := by
    simp [synthChunks, ttsRetry, ttsAttempts, htts, Except.map]
  simp only [generate_narration, hs, hchunks, List.length_singleton, hsynth, concatOrRename,
    fsWrite]
  simp [fsWrite]

theorem c10_empty_text_synthesized_witness :
    chunkSplit [] = [[]] ∧
    generate_narration ttsOk tkFail "a" (fun p => if p = Path.story "a" then some "# h".data else none) =
      (fsWrite (fsDelete (fsWrite (fun p => if p = Path.story "a" then some "# h".data else none)
           (Path.tempChunk "a" 0) ['x']) (Path.tempChunk "a" 0))
         (Path.narration "a") ['x'],
       [.ttsCall [] 0, .write (Path.tempChunk "a" 0),
        .rename (Path.tempChunk "a" 0) (Path.narration "a")],
       .ok (some (Path.narration "a"))) :=
  c10_empty_text_synthesized ttsOk tkFail "a" "# h".data ['x'] _ (by decide) (by decide) rfl

theorem c7_failure_isolation_witness :
    step2_mix tkFail ("a" :: ["b"]) fsMixErr =
      ⟨(step2_mix tkFail ["b"] fsMixErr).fs,
       [.probe (Path.narration "a"), .ffmpegMix "a"] ++ (step2_mix tkFail ["b"] fsMixErr).events,
       (step2_mix tkFail ["b"] fsMixErr).ok, 1 + (step2_mix tkFail ["b"] fsMixErr).fail⟩ :=
  (c7_failure_isolation ttsFail tkFail [] [] ["b"] "a" fsMixErr fsMixErr
    [.probe (Path.narration "a"), .ffmpegMix "a"]).2.2.2.2 rfl rfl

/-- C8 counterexample: the batch summary carries exactly two counters.
A story skipped by the idempotency check (artifacts already present,
empty trace) finishes with counts ok = 1, fail = 0, and a story whose
narration is freshly synthesized (nonempty trace) finishes with the very
same counts ok = 1, fail = 0: the summary line does not report skipped
stories separately from succeeded ones. -/
theorem c8_summary_counts_cx :
    step1_narrations ttsFail tkFail ["a"] fsAllOut = ⟨fsAllOut, [], 1, 0⟩ ∧
    (step1_narrations ttsOk tkOk ["a"] fsStoryHi).ok = 1 ∧
    (step1_narrations ttsOk tkOk ["a"] fsStoryHi).fail = 0 ∧
    (step1_narrations ttsOk tkOk ["a"] fsStoryHi).events ≠ [] := by
  refine ⟨rfl, by decide, by decide, by decide⟩

/-- C8 (amended): after a stage completes for a batch, the summary line
reports two counts, ok and failed; a story skipped by the idempotency
check and a story freshly succeeding are both counted in ok with no
separate skipped count, and a falsy return or raised error is counted
in failed. -/
theorem c8_summary_two_counts (tts : Tts) (tk : Toolkit) (s : String)
    (fs g : FS) (evs : List Event) (p : Path) (e : Unit) :
    ((fs (Path.narration s)).isSome →
      (step1_narrations tts tk [s] fs).ok = 1 ∧
      (step1_narrations tts tk [s] fs).fail = 0 ∧
      (step1_narrations tts tk [s] fs).events = []) ∧
    (fs (Path.narration s) = none →
      generate_narration tts tk s fs = (g, evs, .ok (some p)) →
      (step1_narrations tts tk [s] fs).ok = 1 ∧
      (step1_narrations tts tk [s] fs).fail = 0 ∧
      (step1_narrations tts tk [s] fs).events = evs) ∧
    (fs (Path.narration s) = none →
      generate_narration tts tk s fs = (g, evs, .error e) →
      (step1_narrations tts tk [s] fs).ok = 0 ∧
      (step1_narrations tts tk [s] fs).fail = 1 ∧
      (step1_narrations tts tk [s] fs).events = evs) := by
  refine ⟨?_, ?_, ?_⟩
  · intro h
    rw [step1_narrations, runBatch_cons_skip _ _ _ _ _ h, runBatch_nil]
    exact ⟨rfl, rfl, rfl⟩
  · intro h hgen
    rw [step1_narrations, runBatch_cons_run _ _ _ _ _ (by rw [h]; simp), hgen, runBatch_nil]
    simp [stageOk]
  · intro h hgen
    rw [step1_narrations, runBatch_cons_run _ _ _ _ _ (by rw [h]; simp), hgen, runBatch_nil]
    simp [stageOk]

theorem c8_summary_two_counts_witness :
    ((step1_narrations ttsFail tkFail ["a"] fsAllOut).ok = 1 ∧
     (step1_narrations ttsFail tkFail ["a"] fsAllOut).fail = 0 ∧
     (step1_narrations ttsFail tkFail ["a"] fsAllOut).events = []) ∧
    ((step1_narrations ttsFail tkFail ["a"] fsStoryHi).ok = 0 ∧
     (step1_narrations ttsFail tkFail ["a"] fsStoryHi).fail = 1 ∧
     (step1_narrations ttsFail tkFail ["a"] fsStoryHi).events =
       [.ttsCall "hi".data 0, .sleep 2000, .ttsCall "hi".data 1, .sleep 2000,
        .ttsCall "hi".data 2]) :=
  ⟨(c8_summary_two_counts ttsFail tkFail "a" fsAllOut fsAllOut [] Path.bgm ()).1 rfl,
   (c8_summary_two_counts ttsFail tkFail "a" fsStoryHi fsStoryHi
     [.ttsCall "hi".data 0, .sleep 2000, .ttsCall "hi".data 1, .sleep 2000,
      .ttsCall "hi".data 2] Path.bgm ()).2.2 rfl rfl⟩

/-- C9 counterexample: an existing-but-empty narration artifact is
accepted by the mixer, which runs and reports success, and
existing-but-empty image and mixed-audio artifacts are accepted by the
video composer, which invokes the toolkit and reports success: neither
stage refuses an empty predecessor artifact. -/
theorem c9_empty_artifact_accepted_cx :
    mix_audio tkOk "a" fsEmptyNarr =
      (fsWrite fsEmptyNarr (Path.mixed "a") [],
       [.copy (Path.narration "a") (Path.mixed "a")], .ok (some (Path.mixed "a"))) ∧
    create_video tkOk "a" fsEmptyAV =
      (fsWrite fsEmptyAV (Path.video "a") [],
       [.probe (Path.mixed "a"), .ffmpegVideo "a"], .ok (some (Path.video "a"))) := by
  constructor <;> rfl

/-- C9 (amended): the gate from one stage's artifact to the next stage
checks existence only: the mixer and the video composer report the
not-found failure exactly when a required predecessor artifact is
absent, and for any present artifact — including an empty one — they
proceed past the gate and never report not-found. -/
theorem c9_existence_only_gate (tk : Toolkit) (s : String) (fs : FS) (c d : Str) :
    (fs (Path.narration s) = some c → (mix_audio tk s fs).2.2 ≠ .ok none) ∧
    (fs (Path.narration s) = none → mix_audio tk s fs = (fs, [], .ok none)) ∧
    (fs (Path.image s) = some c → fs (Path.mixed s) = some d →
      (create_video tk s fs).2.2 ≠ .ok none) ∧
    (fs (Path.image s) = none → create_video tk s fs = (fs, [], .ok none)) ∧
    (fs (Path.image s) = some c → fs (Path.mixed s) = none →
      create_video tk s fs = (fs, [], .ok none)) := by
  refine ⟨?_, ?_, ?_, ?_, ?_⟩
  · intro h
    rw [mix_audio, h]
    cases hb : fs Path.bgm with
    | none => simp
    | some music =>
      cases hm : tk.mix c music with
      | none => simp [hm]
      | some out => simp [hm]
  · intro h
    rw [mix_audio, h]
  · intro h hm
    rw [create_video, h, hm]
    cases hv : tk.video c d with
    | none => simp [hv]
    | some out => simp [hv]
  · intro h
    rw [create_video, h]
  · intro h hm
    rw [create_video, h, hm]

theorem c9_existence_only_gate_witness :
    (mix_audio tkOk "a" fsEmptyNarr).2.2 ≠ .ok none ∧
    mix_audio tkOk "a" fsBare = (fsBare, [], .ok none) ∧
    (create_video tkOk "a" fsEmptyAV).2.2 ≠ .ok none :=
  ⟨(c9_existence_only_gate tkOk "a" fsEmptyNarr [] []).1 rfl,
   (c9_existence_only_gate tkOk "a" fsBare [] []).2.1 rfl,
   (c9_existence_only_gate tkOk "a" fsEmptyAV [] []).2.2.1 rfl rfl⟩

end StoryToVideo
